import Mathlib

/-!
Verification of the efifo daemon (src/efifo.py): a shallow embedding of its
script-digest helpers, executor outcome classification, interrupt-escalation
state machine, connection acceptor, worker dequeue loop and startup logic,
together with theorems settling the specified properties.

Conventions of the embedding:
* Python byte strings and their UTF-8 decoding are modelled at text level
  (`List Char` for accumulated bytes, `String.mk` for `bytes.decode()`).
* Wall-clock quantities (elapsed times, the heartbeat's sleeps, the actual
  duration of `queue.get(timeout=...)`) are not modelled; what is modelled is
  the control structure that depends on them (every bounded wait returns to
  its loop head, where flags are re-checked).
* Thread interleaving is modelled by a trace of atomic events processed by a
  step function over the shared state (`MainState`), exactly the shared data
  the threads of efifo.py exchange: the interrupt counter, the cancel flag
  (the `interrupt` `threading.Event`), the scripts queue and `last_script`.
-/

/-! ## Urgency constants (efifo.py lines 95-97) -/

def NORMAL : String := "normal"

def LOW : String := "low"

def CRITICAL : String := "critical"

/-- Rank of an urgency level: `critical` alarms more than `normal`, which is
more than `low`.  (Measurement function for the spec's phrase "higher
urgency"; not part of the source.) -/
def urgencyRank (u : String) : Nat :=
  if u = CRITICAL then 2 else if u = NORMAL then 1 else 0

/-! ## Script digest (efifo.py lines 248-275)

`split_commands`, `first_command` and `display_commands` are pure text
processing; they are embedded here character-for-character.  Python
`str.splitlines` / `str.split(';')` / `str.split()` / `str.strip` are
reproduced on `List Char`. -/

/-- Python `str.splitlines`: split on line terminators, no trailing empty
line (so `"".splitlines() == []` and `"a\n".splitlines() == ["a"]`). -/
def pySplitlinesAux : List Char → List Char → List (List Char)
  | [], acc => if acc.isEmpty then [] else [acc.reverse]
  | '\r' :: '\n' :: cs, acc => acc.reverse :: pySplitlinesAux cs []
  | '\n' :: cs, acc => acc.reverse :: pySplitlinesAux cs []
  | '\r' :: cs, acc => acc.reverse :: pySplitlinesAux cs []
  | c :: cs, acc => pySplitlinesAux cs (c :: acc)

def pySplitlines (s : String) : List (List Char) := pySplitlinesAux s.data []

/-- Python `str.split(';')`: keeps empty pieces, always at least one piece. -/
def pySplitSemiAux : List Char → List Char → List (List Char)
  | [], acc => [acc.reverse]
  | ';' :: cs, acc => acc.reverse :: pySplitSemiAux cs []
  | c :: cs, acc => pySplitSemiAux cs (c :: acc)

/-- Python `str.split()` (no separator): split on whitespace runs, dropping
empty words. -/
def pyWordsAux : List Char → List Char → List (List Char)
  | [], acc => if acc.isEmpty then [] else [acc.reverse]
  | c :: cs, acc =>
    if c.isWhitespace then
      if acc.isEmpty then pyWordsAux cs [] else acc.reverse :: pyWordsAux cs []
    else pyWordsAux cs (c :: acc)

/-- Python `str.strip()`: drop whitespace from both ends. -/
def pyStrip (l : List Char) : List Char :=
  ((l.dropWhile Char.isWhitespace).reverse.dropWhile Char.isWhitespace).reverse

/-- efifo.py line 248: `IGNORED_COMMANDS = {'cd'}`. -/
def IGNORED_COMMANDS : List (List Char) := ["cd".data]

/-- efifo.py lines 251-254: every line of the script, further split on `;`. -/
def split_commands (s : String) : List (List Char) :=
  ((pySplitlines s).map (fun t => pySplitSemiAux t [])).flatten

/-- efifo.py lines 257-263 (loop body of `first_command`). -/
def first_command_go : List (List Char) → List Char
  | [] => []
  | cmd :: rest =>
    match pyWordsAux cmd [] with
    | [] => first_command_go rest
    | w :: _ => if w ∈ IGNORED_COMMANDS then first_command_go rest else w

/-- efifo.py lines 257-263: first word of the first non-ignored command. -/
def first_command (s : String) : String :=
  String.mk (first_command_go (split_commands s))

/-- efifo.py lines 266-275: stripped non-ignored commands, joined by `"; "`,
or `"<empty>"` when nothing remains. -/
def display_commands (s : String) : String :=
  let ret := (split_commands s).filterMap (fun cmd =>
    match pyWordsAux cmd [] with
    | [] => none
    | w :: _ => if w ∈ IGNORED_COMMANDS then none else some (pyStrip cmd))
  if ret.isEmpty then "<empty>" else String.mk (List.intercalate "; ".data ret)

/-! ## Executor outcome classification (efifo.py lines 281-368)

`execute_bash` spawns `bash -x`, feeds it the script, and a poll thread sets
`proc.killed` when the `interrupt` event is observed while the child runs.
The classification after `p.communicate` (lines 330-368) is embedded below.
`killed` stands for the final value of `proc.killed`; `returncode` for
`p.returncode`.  Each notification records the format string, format
arguments (elapsed times elided as wall-clock), urgency, category and expiry
passed to `send_notification` at the corresponding call site. -/

structure Notification where
  message : String
  fmtArgs : List String
  urgency : String
  category : String
  expire : Nat
deriving DecidableEq, Repr

/-- Notification sent at efifo.py line 299 (job started). -/
def runningNotification (display : String) (executions : Nat) : Notification :=
  { message := "Running: %s [%d]", fmtArgs := [display, toString executions],
    urgency := LOW, category := "", expire := 2000 }

/-- Notification sent at efifo.py lines 332-340 (record marked killed). -/
def killedNotification (display : String) : Notification :=
  { message := "KILLED: %s %0.2fs", fmtArgs := [display],
    urgency := NORMAL, category := "done", expire := 15000 }

/-- Notification sent at efifo.py lines 345-354 (exit code 0). -/
def doneNotification (display : String) (returncode : Int) : Notification :=
  { message := "DONE: %s [%d] %0.2fs", fmtArgs := [display, toString returncode],
    urgency := NORMAL, category := "done", expire := 15000 }

/-- Notification sent at efifo.py lines 357-366 (non-zero exit code). -/
def failedNotification (display : String) (returncode : Int) : Notification :=
  { message := "FAILED: %s [%d] %0.2fs", fmtArgs := [display, toString returncode],
    urgency := CRITICAL, category := "failed", expire := 60000 }

/-- efifo.py lines 281-368: the notifications emitted by one `execute_bash`
call and its return value, as functions of the script, the execution
counter, the final `proc.killed` flag and the child's exit status.
Heartbeat notifications from the poll thread are timing-dependent and
elided; the list holds the "Running" notification and the terminal one. -/
def execute_bash (script : String) (executions : Nat) (killed : Bool)
    (returncode : Int) : List Notification × Option Int :=
  let display := display_commands script
  if killed then
    ([runningNotification display executions, killedNotification display], none)
  else if returncode = 0 then
    ([runningNotification display executions, doneNotification display returncode],
     some returncode)
  else
    ([runningNotification display executions, failedNotification display returncode],
     some returncode)

/-- The terminal (outcome) notification of one `execute_bash` call. -/
def terminalNotif (r : List Notification × Option Int) : Option Notification :=
  r.1.getLast?

/-- efifo.py lines 490-493: `reset_interrupts`, the completion callback
installed in `main`; resets the counter only for a non-`None` status. -/
def reset_interrupts (retcode : Option Int) (interrupts : Nat) : Nat :=
  if retcode.isSome then 0 else interrupts

/-! ## Connection acceptor (efifo.py lines 371-407)

`accept` registers a freshly accepted connection with an empty byte
accumulator (line 380); `serve` handles one readiness event for it.  A
selector mask is the pair of its read/write bits. -/

structure Mask where
  readBit : Bool
  writeBit : Bool
deriving DecidableEq, Repr

/-- `selectors.EVENT_READ` as a mask with only the read bit. -/
def EVENT_READ : Mask := { readBit := true, writeBit := false }

/-- `selectors.EVENT_WRITE` as a mask with only the write bit. -/
def EVENT_WRITE : Mask := { readBit := false, writeBit := true }

/-- Per-connection state: the `data.read` accumulator (bytes, modelled as
characters) and whether the connection is still registered with the
selector (it is unregistered and closed on EOF, line 402-403). -/
structure ConnData where
  read : List Char
  registered : Bool
deriving DecidableEq, Repr

/-- The Python exceptions main's serve loop can meet: `KeyboardInterrupt`
(caught at line 526) and `NotImplementedError` (raised at line 407, caught
nowhere). -/
inductive PyExc
  | keyboardInterrupt
  | notImplementedError
deriving DecidableEq, Repr

/-- efifo.py lines 384-407: one `serve` call.  `buf` is what `conn.recv`
returned (`""` = clean close).  Returns the new connection state, the job
submitted to the scripts queue (only on EOF: the decoded accumulator), and
the exception raised, if any.  Note the read branch runs, and its queue
submission persists, before the write bit raises. -/
def serve (conn : ConnData) (mask : Mask) (buf : String) :
    ConnData × Option String × Option PyExc :=
  let step1 :=
    if mask.readBit then
      if buf = "" then ({ conn with registered := false }, some (String.mk conn.read))
      else ({ conn with read := conn.read ++ buf.data }, none)
    else (conn, none)
  if mask.writeBit then (step1.1, step1.2, some PyExc.notImplementedError)
  else (step1.1, step1.2, none)

/-- Drive one connection through the chunks the selector delivers for it
(read events only, as the connection is registered for `EVENT_READ`,
line 381); once it is unregistered no further events are delivered.
Returns the final connection state and the jobs submitted. -/
def connRun (conn : ConnData) : List String → ConnData × List String
  | [] => (conn, [])
  | buf :: rest =>
    if conn.registered then
      match serve conn EVENT_READ buf with
      | (c1, job, _) =>
        match connRun c1 rest with
        | (c2, jobs) => (c2, job.toList ++ jobs)
    else (conn, [])

/-- Index of the first EOF (empty chunk) in a chunk sequence. -/
def firstEmpty : List String → Option Nat
  | [] => none
  | b :: rest => if b = "" then some 0 else (firstEmpty rest).map (· + 1)

/-- Concatenation of the bytes of a chunk sequence. -/
def joinChunks : List String → List Char
  | [] => []
  | b :: rest => b.data ++ joinChunks rest

/-! ## The shared state of main and its threads (efifo.py lines 447-551)

`main` owns `proc.interrupts` (line 488), the `interrupt` event (line 483,
the cancel flag), the `scripts` queue (line 486) and — through the worker —
the `last_script` global (line 279).  The serve loop (lines 508-538), the
KeyboardInterrupt handler (lines 526-538) and the worker thread running
`dequeue` (lines 410-434) all act on this state; their interleaving is a
trace of the atomic events below. -/

structure MainState where
  interrupts : Nat
  cancel : Bool
  scripts : List String
  lastScript : Option String
  conn : ConnData
  spawns : List Bool
deriving DecidableEq, Repr

/-- The state right after lines 468-488: counter 0, interrupt event unset,
empty queue, `last_script = None`, no accepted connection yet.  `spawns` is
an observation history: the value the cancel flag had at each child spawn. -/
def initState : MainState :=
  { interrupts := 0, cancel := false, scripts := [], lastScript := none,
    conn := { read := [], registered := false }, spawns := [] }

/-- The atomic events of the interleaving:
* `iterStart` — the serve loop reaches its head and runs `interrupt.clear()`
  (line 510);
* `keyboard` — a `KeyboardInterrupt` is raised during the selector wait;
* `stdinLine` — readiness of `sys.stdin` (lines 514-518);
* `acceptConn` — readiness of the listening socket: `accept` (lines 371-381);
* `connRecv mask buf` — readiness of the accepted connection: `serve`;
* `workerGet` — the worker's `scripts.get` returns (lines 429-430 up to the
  child spawn in `execute_bash`, none of which touches the interrupt event;
  `queue.Empty` is a no-op, line 433-434);
* `workerDone rc` — `execute_bash` returned `rc` and the worker runs
  `callback(retcode)`, i.e. `reset_interrupts` (lines 431-432, 490-493). -/
inductive Ev
  | iterStart
  | keyboard
  | stdinLine
  | acceptConn
  | connRecv (mask : Mask) (buf : String)
  | workerGet
  | workerDone (rc : Option Int)
deriving DecidableEq, Repr

/-- Lines 534-538: the `except KeyboardInterrupt` handler of the serve loop
increments the counter and sets the interrupt event. -/
def kbHandler (s : MainState) : MainState :=
  { s with interrupts := s.interrupts + 1, cancel := true }

/-- Effect of one atomic event on the shared state, plus the exception it
raises, before any handler runs.  `stdinLine` translates line 516's
`if last_script:` with Python truthiness (`None` and `""` are falsy). -/
def rawStep (s : MainState) (e : Ev) : MainState × Option PyExc :=
  match e with
  | .iterStart => ({ s with cancel := false }, none)
  | .keyboard => (s, some PyExc.keyboardInterrupt)
  | .stdinLine =>
    (match s.lastScript with
     | some t => if t = "" then s else { s with scripts := s.scripts ++ [t] }
     | none => s, none)
  | .acceptConn => ({ s with conn := { read := [], registered := true } }, none)
  | .connRecv mask buf =>
    if s.conn.registered then
      match serve s.conn mask buf with
      | (c1, job, exc) =>
        ({ s with conn := c1, scripts := s.scripts ++ job.toList }, exc)
    else (s, none)
  | .workerGet =>
    (match s.scripts with
     | [] => s
     | x :: rest =>
       { s with scripts := rest, lastScript := some x, spawns := s.spawns ++ [s.cancel] },
     none)
  | .workerDone rc =>
    ({ s with interrupts := reset_interrupts rc s.interrupts }, none)

/-- One event as the serve loop sees it: the `try`/`except KeyboardInterrupt`
of lines 511-538 converts a `KeyboardInterrupt` into the handler's effect;
every other exception propagates. -/
def step (s : MainState) (e : Ev) : MainState × Option PyExc :=
  match rawStep s e with
  | (s1, some PyExc.keyboardInterrupt) => (kbHandler s1, none)
  | r => r

/-- Process a trace of events; an uncaught exception aborts the run (the
loop and `main` have no handler for it), leaving the remaining events
unprocessed. -/
def runMain (s : MainState) : List Ev → MainState × Option PyExc
  | [] => (s, none)
  | e :: rest =>
    match step s e with
    | (s1, none) => runMain s1 rest
    | (s1, some exc) => (s1, some exc)

/-- Line 509: the serve loop's guard `proc.interrupts < args.max_interrupts`.
The loop keeps running exactly while this is true. -/
def serveContinues (s : MainState) (maxInterrupts : Nat) : Bool :=
  decide (s.interrupts < maxInterrupts)

/-- Number of `keyboard` events in a trace. -/
def countKb (evs : List Ev) : Nat :=
  evs.countP (fun e => decide (e = Ev.keyboard))

/-! ## The worker loop `dequeue` (efifo.py lines 410-434)

The loop checks `shutdown.is_set()` at each head; `scripts.get(timeout)`
returns within one polling interval, either with the front job (FIFO) or by
raising `queue.Empty` (a no-op, lines 433-434).  A run is driven by the list
of successive values the shutdown flag shows at each loop head; totality of
the run function is the bounded-wait property.  `executed` is an observation
history of the scripts handed to `execute_bash`, in order. -/

/-- `queue.Queue.get` on the modelled FIFO content: front element, or no
job when the queue is empty (`queue.Empty`). -/
def queueGet : List String → Option (String × List String)
  | [] => none
  | x :: xs => some (x, xs)

structure DqState where
  scripts : List String
  lastScript : Option String
  executed : List String
deriving DecidableEq, Repr

/-- One iteration body of `dequeue` (lines 428-434): take the front job if
any, record it in `last_script`, execute it; on `queue.Empty`, pass. -/
def dequeueIter (s : DqState) : DqState :=
  match queueGet s.scripts with
  | some (x, rest) =>
    { scripts := rest, lastScript := some x, executed := s.executed ++ [x] }
  | none => s

/-- The `while not shutdown.is_set()` loop of `dequeue`, driven by the
values of the shutdown flag observed at successive loop heads. -/
def dequeueLoop (s : DqState) : List Bool → DqState
  | [] => s
  | sd :: rest => if sd then s else dequeueLoop (dequeueIter s) rest

/-! ## Startup socket handling (efifo.py lines 437-477)

`main` removes a pre-existing file at the socket path (aborting with
`os.EX_UNAVAILABLE` when `os.remove` raises `OSError`), otherwise creates
the parent directory when missing, then creates, binds and listens on the
socket.  The filesystem is modelled by the outcomes of the two system calls
involved; a run records the actions that took effect, in order, plus the
early-return code, if any. -/

def EX_OK : Nat := 0

def EX_UNAVAILABLE : Nat := 69

def EX_CANTCREAT : Nat := 73

structure FsModel where
  socketExists : Bool
  removeFails : Bool
  dirExists : Bool
deriving DecidableEq, Repr

inductive StartAct
  | removeSocketFile
  | makeDirs
  | createSocket
  | bindSocket
  | listenSocket
deriving DecidableEq, Repr

/-- efifo.py lines 437-444: `remove_socket_file`; returns the actions that
took effect and `os.EX_UNAVAILABLE` when the removal raised `OSError`. -/
def remove_socket_file (fs : FsModel) : List StartAct × Option Nat :=
  if fs.socketExists then
    if fs.removeFails then ([], some EX_UNAVAILABLE)
    else ([StartAct.removeSocketFile], none)
  else ([], none)

/-- efifo.py lines 456-477: the startup prefix of `main`, up to `listen`.
An early return carries the exit code and performs no further action. -/
def mainStartup (fs : FsModel) : List StartAct × Option Nat :=
  if fs.socketExists then
    match remove_socket_file fs with
    | (acts, some code) => (acts, some code)
    | (acts, none) =>
      (acts ++ [StartAct.createSocket, StartAct.bindSocket, StartAct.listenSocket], none)
  else
    ((if fs.dirExists then [] else [StartAct.makeDirs]) ++
      [StartAct.createSocket, StartAct.bindSocket, StartAct.listenSocket], none)

/-! ## Theorems -/

/-- C7: the script digest splits the script into lines and then on `;` and
filters out empty commands and commands whose first word is ignored:
`"echo a; cd /x; echo b"` yields display text `"echo a; echo b"` and
first-command label `"echo"`, and `"cd /tmp"` yields `"<empty>"`. -/
theorem script_digest_examples :
    display_commands "echo a; cd /x; echo b" = "echo a; echo b" ∧
    first_command "echo a; cd /x; echo b" = "echo" ∧
    display_commands "cd /tmp" = "<empty>" := by
  refine ⟨?_, ?_, ?_⟩ <;> decide

/-- C1: the interrupt counter is reset to 0 exactly when the execution
returns a real exit status: with `proc.killed` false, `execute_bash` returns
the exit code (zero or not) and the completion callback resets the counter
to 0; with `proc.killed` true (the job was killed via the cancel flag), it
returns `None` and the callback leaves the counter unchanged. -/
theorem reset_on_real_exit_only (script : String) (ex : Nat) (rc : Int) (n : Nat) :
    (execute_bash script ex false rc).2 = some rc ∧
    reset_interrupts (execute_bash script ex false rc).2 n = 0 ∧
    (execute_bash script ex true rc).2 = none ∧
    reset_interrupts (execute_bash script ex true rc).2 n = n := by
  by_cases h : rc = 0 <;> simp [execute_bash, reset_interrupts, h]

/-- C6: outcome classification of one `execute_bash` call is exhaustive and
mutually exclusive: marked killed → KILLED notification at normal urgency
and the no-status sentinel; not killed and exit code 0 → DONE notification
and the code returned; not killed and non-zero code → FAILED notification at
critical (higher) urgency and the code returned. -/
theorem outcome_classification (script : String) (ex : Nat) (rc : Int)
    (hrc : rc ≠ 0) :
    terminalNotif (execute_bash script ex true rc) =
      some (killedNotification (display_commands script)) ∧
    (execute_bash script ex true rc).2 = none ∧
    (killedNotification (display_commands script)).urgency = NORMAL ∧
    terminalNotif (execute_bash script ex false 0) =
      some (doneNotification (display_commands script) 0) ∧
    (execute_bash script ex false 0).2 = some 0 ∧
    (doneNotification (display_commands script) 0).urgency = NORMAL ∧
    terminalNotif (execute_bash script ex false rc) =
      some (failedNotification (display_commands script) rc) ∧
    (execute_bash script ex false rc).2 = some rc ∧
    (failedNotification (display_commands script) rc).urgency = CRITICAL ∧
    urgencyRank NORMAL < urgencyRank CRITICAL ∧
    (∀ (killed : Bool) (rc2 : Int), ∃ t : Notification,
      terminalNotif (execute_bash script ex killed rc2) = some t ∧
      (t = killedNotification (display_commands script) ∨
       t = doneNotification (display_commands script) rc2 ∨
       t = failedNotification (display_commands script) rc2)) := by
  refine ⟨?_, ?_, ?_, ?_, ?_, ?_, ?_, ?_, ?_, ?_, ?_⟩
  · simp [execute_bash, terminalNotif]
  · simp [execute_bash]
  · rfl
  · simp [execute_bash, terminalNotif]
  · simp [execute_bash]
  · rfl
  · simp [execute_bash, terminalNotif, hrc]
  · simp [execute_bash, hrc]
  · rfl
  · decide
  · intro killed rc2
    cases killed
    · by_cases h2 : rc2 = 0 <;> simp [execute_bash, terminalNotif, h2]
    · simp [execute_bash, terminalNotif]

/-- Witness for `outcome_classification` at script `"ls"`, exit code 2. -/
theorem outcome_classification_witness :
    ((2 : Int) ≠ 0) ∧
    (terminalNotif (execute_bash "ls" 1 true 2) =
       some (killedNotification (display_commands "ls")) ∧
     (execute_bash "ls" 1 true 2).2 = none ∧
     (killedNotification (display_commands "ls")).urgency = NORMAL ∧
     terminalNotif (execute_bash "ls" 1 false 0) =
       some (doneNotification (display_commands "ls") 0) ∧
     (execute_bash "ls" 1 false 0).2 = some 0 ∧
     (doneNotification (display_commands "ls") 0).urgency = NORMAL ∧
     terminalNotif (execute_bash "ls" 1 false 2) =
       some (failedNotification (display_commands "ls") 2) ∧
     (execute_bash "ls" 1 false 2).2 = some 2 ∧
     (failedNotification (display_commands "ls") 2).urgency = CRITICAL ∧
     urgencyRank NORMAL < urgencyRank CRITICAL ∧
     (∀ (killed : Bool) (rc2 : Int), ∃ t : Notification,
       terminalNotif (execute_bash "ls" 1 killed rc2) = some t ∧
       (t = killedNotification (display_commands "ls") ∨
        t = doneNotification (display_commands "ls") rc2 ∨
        t = failedNotification (display_commands "ls") rc2))) :=
  ⟨by decide, outcome_classification "ls" 1 2 (by decide)⟩

/-- C9: on startup, a pre-existing file at the socket path is removed before
the socket is created/bound; if removal fails with an `OSError`, `main`
returns the distinct `os.EX_UNAVAILABLE` code without ever creating or
binding a listening socket. -/
theorem startup_socket_removal (d : Bool) :
    mainStartup { socketExists := true, removeFails := true, dirExists := d } =
      ([], some EX_UNAVAILABLE) ∧
    StartAct.bindSocket ∉
      (mainStartup { socketExists := true, removeFails := true, dirExists := d }).1 ∧
    StartAct.createSocket ∉
      (mainStartup { socketExists := true, removeFails := true, dirExists := d }).1 ∧
    mainStartup { socketExists := true, removeFails := false, dirExists := d } =
      ([StartAct.removeSocketFile, StartAct.createSocket, StartAct.bindSocket,
        StartAct.listenSocket], none) ∧
    EX_UNAVAILABLE ≠ EX_OK ∧ EX_UNAVAILABLE ≠ EX_CANTCREAT := by
  cases d <;> decide

/-- For any run of the worker loop, the executed scripts followed by the
scripts still queued are exactly the original queue content, in order. -/
theorem dequeueLoop_partition : ∀ (flags : List Bool) (s : DqState),
    (dequeueLoop s flags).executed ++ (dequeueLoop s flags).scripts =
      s.executed ++ s.scripts := by
  intro flags
  induction flags with
  | nil => intro s; simp [dequeueLoop]
  | cons sd rest ih =>
    intro s
    cases sd
    · rw [show dequeueLoop s (false :: rest) = dequeueLoop (dequeueIter s) rest from rfl,
        ih]
      rcases hq : s.scripts with _ | ⟨x, xs⟩ <;>
        simp [dequeueIter, queueGet, hq]
    · simp [dequeueLoop]

/-- C8: the worker's dequeue is a bounded wait that yields either the
earliest-enqueued job (FIFO) or no job, the loop re-checks the shutdown flag
at every loop head and stops as soon as it is observed set, and a run
neither drops, duplicates nor reorders jobs. -/
theorem dequeue_fifo_shutdown :
    (∀ (s : DqState) (flags : List Bool), dequeueLoop s (true :: flags) = s) ∧
    (∀ (x : String) (xs : List String), queueGet (x :: xs) = some (x, xs)) ∧
    queueGet ([] : List String) = none ∧
    (∀ (flags : List Bool) (q : List String),
      (dequeueLoop { scripts := q, lastScript := none, executed := [] } flags).executed ++
        (dequeueLoop { scripts := q, lastScript := none, executed := [] } flags).scripts
        = q) := by
  refine ⟨fun s flags => rfl, fun x xs => rfl, rfl, fun flags q => ?_⟩
  simpa using dequeueLoop_partition flags { scripts := q, lastScript := none, executed := [] }

/-- `serve` on a pure read event: append a non-empty chunk, or on EOF
unregister/close and submit the decoded accumulator; never an exception. -/
theorem serve_read_eq (conn : ConnData) (buf : String) :
    serve conn EVENT_READ buf =
      if buf = "" then
        ({ conn with registered := false }, some (String.mk conn.read), none)
      else ({ conn with read := conn.read ++ buf.data }, none, none) := by
  by_cases hb : buf = "" <;> simp [serve, EVENT_READ, hb]

/-- Once a connection is unregistered, the selector delivers nothing more
for it: no further state change, no further job. -/
theorem connRun_unregistered (cs : List String) (conn : ConnData)
    (h : conn.registered = false) : connRun conn cs = (conn, []) := by
  cases cs <;> simp [connRun, h]

/-- Jobs produced by one registered connection with accumulator `acc`: none
until an EOF chunk arrives, and at the first EOF exactly one job holding the
accumulator plus every chunk read before the EOF. -/
theorem connRun_go : ∀ (cs : List String) (acc : List Char),
    (connRun { read := acc, registered := true } cs).2 =
      match firstEmpty cs with
      | none => []
      | some k => [String.mk (acc ++ joinChunks (List.take k cs))] := by
  intro cs
  induction cs with
  | nil => intro acc; simp [connRun, firstEmpty]
  | cons b rest ih =>
    intro acc
    by_cases hb : b = ""
    · subst hb
      simp [connRun, serve_read_eq, connRun_unregistered, firstEmpty, joinChunks]
    · rcases hfe : firstEmpty rest with _ | k <;>
        simp [connRun, serve_read_eq, hb, firstEmpty, hfe, ih, joinChunks,
          List.take_succ_cons, List.append_assoc]

/-- C5: for every accepted connection, exactly the bytes read before EOF are
accumulated and at most one job is ever submitted; the job — the decoded
accumulator — is submitted exactly at the first clean close (empty read),
and never while data is still arriving (no EOF, no job). -/
theorem connection_single_job (cs : List String) :
    (connRun { read := [], registered := true } cs).2 =
      match firstEmpty cs with
      | none => ([] : List String)
      | some k => [String.mk (joinChunks (List.take k cs))] := by
  have h := connRun_go cs []
  rcases hfe : firstEmpty cs with _ | k <;> simp [hfe] at h ⊢ <;> exact h

/-- The `KeyboardInterrupt` handler effect: one caught interrupt increments
the counter by one and sets the cancel flag. -/
theorem step_keyboard (s : MainState) : step s Ev.keyboard = (kbHandler s, none) := rfl

/-- The only exception `serve` can raise is `NotImplementedError`, exactly
when the mask has the write bit. -/
theorem serve_exc (conn : ConnData) (mask : Mask) (buf : String) :
    (serve conn mask buf).2.2 =
      if mask.writeBit then some PyExc.notImplementedError else none := by
  by_cases hw : mask.writeBit <;> simp [serve, hw]

/-- A non-erroring step increases the interrupt counter by at most the
number of `keyboard` events it contains (i.e. 1 for `keyboard`, 0 else). -/
theorem step_interrupts_le (s : MainState) (e : Ev) (s1 : MainState)
    (h : step s e = (s1, none)) :
    s1.interrupts ≤ s.interrupts + countKb [e] := by
  cases e with
  | iterStart =>
    simp [step, rawStep] at h
    subst h; simp
  | keyboard =>
    rw [step_keyboard] at h
    simp [Prod.ext_iff] at h
    subst h
    simp [kbHandler, countKb, List.countP_cons]
  | stdinLine =>
    simp [step, rawStep] at h
    rcases hls : s.lastScript with _ | t <;> rw [hls] at h
    · subst h; simp
    · by_cases ht : t = "" <;> simp [ht] at h <;> subst h <;> simp
  | acceptConn =>
    simp [step, rawStep] at h
    subst h; simp
  | connRecv mask buf =>
    by_cases hr : s.conn.registered <;>
      simp [step, rawStep, hr] at h
    · rcases hs : serve s.conn mask buf with ⟨c1, job, exc⟩
      rw [hs] at h
      cases exc with
      | none => simp at h; subst h; simp
      | some ex =>
        cases ex with
        | keyboardInterrupt =>
          exfalso
          have h2 := serve_exc s.conn mask buf
          rw [hs] at h2
          by_cases hw : mask.writeBit <;> simp [hw] at h2
        | notImplementedError => simp at h
    · subst h; simp
  | workerGet =>
    simp [step, rawStep] at h
    rcases hq : s.scripts with _ | ⟨x, xs⟩ <;> rw [hq] at h <;>
      simp at h <;> subst h <;> simp
  | workerDone rc =>
    simp [step, rawStep] at h
    subst h
    simp [reset_interrupts]
    split <;> omega

/-- `countKb` of a single event. -/
theorem countKb_single (e : Ev) :
    countKb [e] = if e = Ev.keyboard then 1 else 0 := by
  by_cases he : e = Ev.keyboard <;>
    simp [countKb, List.countP_cons, List.countP_nil, he]

/-- Without a completing `workerDone (some _)` event, a non-erroring step
changes the counter exactly by its number of `keyboard` events. -/
theorem step_interrupts_eq (s : MainState) (e : Ev) (s1 : MainState)
    (h : step s e = (s1, none)) (hnc : ∀ c : Int, e ≠ Ev.workerDone (some c)) :
    s1.interrupts = s.interrupts + countKb [e] := by
  cases e with
  | iterStart =>
    simp [step, rawStep] at h
    subst h; simp [countKb_single]
  | keyboard =>
    rw [step_keyboard] at h
    simp [Prod.ext_iff] at h
    subst h
    simp [kbHandler, countKb_single]
  | stdinLine =>
    simp [step, rawStep] at h
    rcases hls : s.lastScript with _ | t <;> rw [hls] at h
    · subst h; simp [countKb_single]
    · by_cases ht : t = "" <;> simp [ht] at h <;> subst h <;>
        simp [countKb_single]
  | acceptConn =>
    simp [step, rawStep] at h
    subst h; simp [countKb_single]
  | connRecv mask buf =>
    by_cases hr : s.conn.registered <;>
      simp [step, rawStep, hr] at h
    · rcases hs : serve s.conn mask buf with ⟨c1, job, exc⟩
      rw [hs] at h
      cases exc with
      | none => simp at h; subst h; simp [countKb_single]
      | some ex =>
        cases ex with
        | keyboardInterrupt =>
          exfalso
          have h2 := serve_exc s.conn mask buf
          rw [hs] at h2
          by_cases hw : mask.writeBit <;> simp [hw] at h2
        | notImplementedError => simp at h
    · subst h; simp [countKb_single]
  | workerGet =>
    simp [step, rawStep] at h
    rcases hq : s.scripts with _ | ⟨x, xs⟩ <;> rw [hq] at h <;>
      simp at h <;> subst h <;> simp [countKb_single]
  | workerDone rc =>
    cases rc with
    | none =>
      simp [step, rawStep] at h
      subst h
      simp [reset_interrupts, countKb_single]
    | some c => exact absurd rfl (hnc c)

/-- `countKb` of a cons. -/
theorem countKb_cons (e : Ev) (l : List Ev) :
    countKb (e :: l) = countKb l + countKb [e] := by
  simp [countKb, List.countP_cons]

/-- `countKb` of an append. -/
theorem countKb_append (l1 l2 : List Ev) :
    countKb (l1 ++ l2) = countKb l1 + countKb l2 := by
  simp [countKb, List.countP_append]

/-- Over a non-erroring run, the counter grows by at most the number of
`keyboard` events in the trace. -/
theorem runMain_interrupts_le : ∀ (p : List Ev) (s sp : MainState),
    runMain s p = (sp, none) → sp.interrupts ≤ s.interrupts + countKb p := by
  intro p
  induction p with
  | nil =>
    intro s sp h
    simp [runMain] at h
    subst h; simp
  | cons e rest ih =>
    intro s sp h
    rw [show runMain s (e :: rest) =
        (match step s e with
         | (s1, none) => runMain s1 rest
         | (s1, some exc) => (s1, some exc)) from rfl] at h
    rcases hst : step s e with ⟨s1, exc⟩
    rw [hst] at h
    cases exc with
    | none =>
      have h1 := ih s1 sp h
      have h2 := step_interrupts_le s e s1 hst
      have h3 := countKb_cons e rest
      omega
    | some ex => simp at h

/-- Over a non-erroring run that contains no completing `workerDone (some _)`
event, the counter grows by exactly the number of `keyboard` events. -/
theorem runMain_interrupts_eq : ∀ (p : List Ev) (s sp : MainState),
    runMain s p = (sp, none) → (∀ c : Int, Ev.workerDone (some c) ∉ p) →
    sp.interrupts = s.interrupts + countKb p := by
  intro p
  induction p with
  | nil =>
    intro s sp h _
    simp [runMain] at h
    subst h; simp [countKb]
  | cons e rest ih =>
    intro s sp h hno
    rw [show runMain s (e :: rest) =
        (match step s e with
         | (s1, none) => runMain s1 rest
         | (s1, some exc) => (s1, some exc)) from rfl] at h
    rcases hst : step s e with ⟨s1, exc⟩
    rw [hst] at h
    cases exc with
    | none =>
      have h1 := ih s1 sp h (fun c hc => hno c (List.mem_cons_of_mem e hc))
      have h2 := step_interrupts_eq s e s1 hst
        (fun c he => hno c (by rw [← he]; exact List.mem_cons_self e rest))
      have h3 := countKb_cons e rest
      omega
    | some ex => simp at h

/-- C2: the serve loop's guard holds while `consecutive_interrupts` is
strictly below the configured maximum and fails once it reaches it.  From a
state with counter 0, a trace of `maxI` interrupts with no completing job in
between (`evs1`) drives the counter to exactly `maxI`, so the loop guard
fails and the loop terminates; along any trace containing at most
`maxI - 1` interrupts — in particular `maxI - 1` interrupts interleaved
with a job completing with any exit code — the guard holds at every prefix,
because a completion resets the counter (last conjunct) and interrupts only
ever add one. -/
theorem serve_loop_escalation
    (maxI : Nat) (s0 sp : MainState) (evs1 evs2 p q : List Ev)
    (h0 : s0.interrupts = 0)
    (hno : ∀ c : Int, Ev.workerDone (some c) ∉ evs1)
    (hkb1 : countKb evs1 = maxI)
    (hsnd1 : (runMain s0 evs1).2 = none)
    (hkb2 : countKb evs2 + 1 ≤ maxI)
    (hsplit : evs2 = p ++ q)
    (hrun2 : runMain s0 p = (sp, none)) :
    serveContinues (runMain s0 evs1).1 maxI = false ∧
    ((runMain s0 evs1).1).interrupts = maxI ∧
    serveContinues sp maxI = true ∧
    (∀ (s : MainState) (c : Int),
      ((step s (Ev.workerDone (some c))).1).interrupts = 0) := by
  have hrun1 : runMain s0 evs1 = ((runMain s0 evs1).1, none) := by
    rw [← hsnd1]
  have heq : ((runMain s0 evs1).1).interrupts = maxI := by
    have := runMain_interrupts_eq evs1 s0 (runMain s0 evs1).1 hrun1 hno
    omega
  have hle : sp.interrupts < maxI := by
    have h1 := runMain_interrupts_le p s0 sp hrun2
    have h2 : countKb evs2 = countKb p + countKb q := by
      rw [hsplit, countKb_append]
    omega
  refine ⟨?_, heq, ?_, ?_⟩
  · simp [serveContinues, heq]
  · simp [serveContinues, hle]
  · intro s c
    simp [step, rawStep, reset_interrupts]

/-- Witness for `serve_loop_escalation` at `maxI = 3`, three straight
interrupts versus two interrupts separated by a completed job. -/
theorem serve_loop_escalation_witness :
    (initState.interrupts = 0) ∧
    (∀ c : Int, Ev.workerDone (some c) ∉ List.replicate 3 Ev.keyboard) ∧
    countKb (List.replicate 3 Ev.keyboard) = 3 ∧
    (runMain initState (List.replicate 3 Ev.keyboard)).2 = none ∧
    countKb [Ev.keyboard, Ev.workerDone (some 0), Ev.keyboard] + 1 ≤ 3 ∧
    ([Ev.keyboard, Ev.workerDone (some 0), Ev.keyboard] : List Ev) =
      [Ev.keyboard, Ev.workerDone (some 0), Ev.keyboard] ++ [] ∧
    runMain initState [Ev.keyboard, Ev.workerDone (some 0), Ev.keyboard] =
      ((runMain initState [Ev.keyboard, Ev.workerDone (some 0), Ev.keyboard]).1, none) ∧
    (serveContinues (runMain initState (List.replicate 3 Ev.keyboard)).1 3 = false ∧
     ((runMain initState (List.replicate 3 Ev.keyboard)).1).interrupts = 3 ∧
     serveContinues
       (runMain initState [Ev.keyboard, Ev.workerDone (some 0), Ev.keyboard]).1 3
       = true ∧
     (∀ (s : MainState) (c : Int),
       ((step s (Ev.workerDone (some c))).1).interrupts = 0)) :=
  ⟨rfl, fun c => by simp [List.mem_replicate], by decide, by decide, by decide,
   (List.append_nil _).symm, by decide,
   serve_loop_escalation 3 initState
     (runMain initState [Ev.keyboard, Ev.workerDone (some 0), Ev.keyboard]).1
     (List.replicate 3 Ev.keyboard)
     [Ev.keyboard, Ev.workerDone (some 0), Ev.keyboard]
     [Ev.keyboard, Ev.workerDone (some 0), Ev.keyboard] []
     rfl (fun c => by simp [List.mem_replicate]) (by decide) (by decide)
     (by decide) (List.append_nil _).symm (by decide)⟩

/-- C3 counterexample: it is NOT true that every job the worker receives is
spawned with the cancel flag false.  Concrete reachable interleaving: a
connection submits `"sleep 99"`, a `KeyboardInterrupt` arrives (setting the
interrupt event, line 538), and the worker dequeues and spawns before the
serve loop reaches its next `interrupt.clear()` (line 510): the spawn
happens with the flag set (`spawns = [true]`). -/
theorem cancel_set_at_spawn_trace :
    ¬ (∀ (evs : List Ev) (s1 : MainState), runMain initState evs = (s1, none) →
        ∀ b ∈ s1.spawns, b = false) := by
  intro h
  have := h [Ev.acceptConn, Ev.connRecv EVENT_READ "sleep 99",
      Ev.connRecv EVENT_READ "", Ev.keyboard, Ev.workerGet]
    { interrupts := 1, cancel := true, scripts := [],
      lastScript := some "sleep 99",
      conn := { read := "sleep 99".data, registered := false },
      spawns := [true] }
    (by decide) true (by decide)
  exact absurd this (by decide)

/-- C3 amended: the cancel flag is cleared at the top of every serve-loop
iteration (`interrupt.clear()`, line 510), not by the Executor when it
receives a job: dequeuing a job leaves the flag unchanged and the child is
spawned with whatever value the flag has at that moment, so a job dequeued
after an interrupt but before the next loop iteration is spawned with the
flag set. -/
theorem cancel_cleared_per_iteration (s t : MainState) (x : String)
    (rest : List String) (h : t.scripts = x :: rest) :
    step s Ev.iterStart = ({ s with cancel := false }, none) ∧
    step t Ev.workerGet =
      ({ t with scripts := rest, lastScript := some x,
                spawns := t.spawns ++ [t.cancel] }, none) := by
  refine ⟨rfl, ?_⟩
  simp [step, rawStep, h]

/-- Witness for `cancel_cleared_per_iteration`: a state holding one queued
job `"a"` with the cancel flag set. -/
theorem cancel_cleared_per_iteration_witness :
    ({ interrupts := 0, cancel := true, scripts := ["a"], lastScript := none,
       conn := { read := [], registered := false },
       spawns := [] } : MainState).scripts = ["a"] ∧
    (step initState Ev.iterStart = ({ initState with cancel := false }, none) ∧
     step { interrupts := 0, cancel := true, scripts := ["a"],
            lastScript := none,
            conn := { read := [], registered := false }, spawns := [] }
         Ev.workerGet =
       ({ interrupts := 0, cancel := true, scripts := [],
          lastScript := some "a",
          conn := { read := [], registered := false },
          spawns := [true] }, none)) :=
  ⟨rfl, cancel_cleared_per_iteration initState
    { interrupts := 0, cancel := true, scripts := ["a"], lastScript := none,
      conn := { read := [], registered := false }, spawns := [] }
    "a" [] rfl⟩

/-- C4 counterexample: it is NOT true that the acceptor loop never crashes
on a delivered write-readiness event.  Concrete input: after one accept, a
write-readiness event makes `serve` raise `NotImplementedError` (line 407),
which no handler catches — the run aborts with the uncaught exception. -/
theorem write_event_crashes_loop :
    ¬ (∀ evs : List Ev,
        (runMain initState evs).2 ≠ some PyExc.notImplementedError) := by
  intro h
  exact h [Ev.acceptConn, Ev.connRecv EVENT_WRITE ""] (by decide)

/-- C4 amended: a write-readiness event delivered for a registered
connection makes `serve` raise `NotImplementedError`; the serve loop catches
only `KeyboardInterrupt`, so the exception aborts the loop — the remaining
events are never served and `main` propagates the exception (process-fatal,
not connection-fatal) — and a pure write event leaves the state, in
particular the still-registered connection, untouched (the connection is
not closed). -/
theorem write_event_uncaught (s : MainState) (mask : Mask) (buf : String)
    (rest : List Ev) (hm : mask.writeBit = true)
    (hreg : s.conn.registered = true) :
    (step s (Ev.connRecv mask buf)).2 = some PyExc.notImplementedError ∧
    runMain s (Ev.connRecv mask buf :: rest) =
      ((step s (Ev.connRecv mask buf)).1, some PyExc.notImplementedError) ∧
    rawStep s (Ev.connRecv EVENT_WRITE buf) =
      (s, some PyExc.notImplementedError) := by
  have hserve := serve_exc s.conn mask buf
  rw [hm] at hserve
  simp at hserve
  have hstep : (step s (Ev.connRecv mask buf)).2 =
      some PyExc.notImplementedError := by
    rcases hs : serve s.conn mask buf with ⟨c1, job, exc⟩
    rw [hs] at hserve
    simp at hserve
    subst hserve
    simp [step, rawStep, hreg, hs]
  refine ⟨hstep, ?_, ?_⟩
  · rcases hsp : step s (Ev.connRecv mask buf) with ⟨s1, exc⟩
    rw [hsp] at hstep
    simp at hstep
    subst hstep
    simp [runMain, hsp]
  · rcases hs : serve s.conn EVENT_WRITE buf with ⟨c1, job, exc⟩
    have h1 : serve s.conn EVENT_WRITE buf =
        (s.conn, none, some PyExc.notImplementedError) := by
      simp [serve, EVENT_WRITE]
    rw [h1] at hs
    simp [rawStep, hreg, h1]

/-- Witness for `write_event_uncaught`: a pure `EVENT_WRITE` event on a
freshly accepted connection, followed by one more event that is never
served. -/
theorem write_event_uncaught_witness :
    EVENT_WRITE.writeBit = true ∧
    ({ interrupts := 0, cancel := false, scripts := [], lastScript := none,
       conn := { read := [], registered := true },
       spawns := [] } : MainState).conn.registered = true ∧
    ((step { interrupts := 0, cancel := false, scripts := [],
             lastScript := none,
             conn := { read := [], registered := true }, spawns := [] }
        (Ev.connRecv EVENT_WRITE "")).2 = some PyExc.notImplementedError ∧
     runMain { interrupts := 0, cancel := false, scripts := [],
               lastScript := none,
               conn := { read := [], registered := true }, spawns := [] }
         (Ev.connRecv EVENT_WRITE "" :: [Ev.keyboard]) =
       ((step { interrupts := 0, cancel := false, scripts := [],
                lastScript := none,
                conn := { read := [], registered := true }, spawns := [] }
           (Ev.connRecv EVENT_WRITE "")).1, some PyExc.notImplementedError) ∧
     rawStep { interrupts := 0, cancel := false, scripts := [],
               lastScript := none,
               conn := { read := [], registered := true }, spawns := [] }
         (Ev.connRecv EVENT_WRITE "") =
       ({ interrupts := 0, cancel := false, scripts := [], lastScript := none,
          conn := { read := [], registered := true }, spawns := [] },
        some PyExc.notImplementedError)) :=
  ⟨rfl, rfl,
   write_event_uncaught
     { interrupts := 0, cancel := false, scripts := [], lastScript := none,
       conn := { read := [], registered := true }, spawns := [] }
     EVENT_WRITE "" [Ev.keyboard] rfl rfl⟩

/-- C10 counterexample: it is NOT true that whenever a job has already been
dequeued, a line on stdin re-enqueues the most recently dequeued script.
Concrete reachable state: a connection that closed without sending bytes
produces the empty script, which is dequeued (`last_script = ""`); line
516's `if last_script:` is then falsy, so the stdin line enqueues nothing. -/
theorem stdin_empty_last_script :
    ¬ (∀ (evs : List Ev) (s1 : MainState), runMain initState evs = (s1, none) →
        s1.lastScript.isSome = true →
        ((step s1 Ev.stdinLine).1).scripts =
          s1.scripts ++ [s1.lastScript.getD ""]) := by
  intro h
  have := h [Ev.acceptConn, Ev.connRecv EVENT_READ "", Ev.workerGet]
    { interrupts := 0, cancel := false, scripts := [], lastScript := some "",
      conn := { read := [], registered := false }, spawns := [false] }
    (by decide) (by decide)
  exact absurd this (by decide)

/-- C10 amended: on a stdin line during serving, if at least one job has
been dequeued and the most recently dequeued script is non-empty, exactly
that script is enqueued again; if no job has been dequeued yet, or the most
recent script is the empty string (falsy in line 516's `if last_script:`),
the line is consumed with no state change and no job created. -/
theorem stdin_repeats_nonempty_last (s1 s2 s3 : MainState) (t : String)
    (h1 : s1.lastScript = none) (h2 : s2.lastScript = some "")
    (h3 : s3.lastScript = some t) (ht : t ≠ "") :
    step s1 Ev.stdinLine = (s1, none) ∧
    step s2 Ev.stdinLine = (s2, none) ∧
    step s3 Ev.stdinLine = ({ s3 with scripts := s3.scripts ++ [t] }, none) := by
  refine ⟨?_, ?_, ?_⟩ <;> simp [step, rawStep, h1, h2, h3, ht]

/-- Witness for `stdin_repeats_nonempty_last`: no job dequeued yet, an
empty last script, and the non-empty last script `"ls"`. -/
theorem stdin_repeats_nonempty_last_witness :
    (initState.lastScript = none) ∧
    ({ initState with lastScript := some "" } : MainState).lastScript = some "" ∧
    ({ initState with lastScript := some "ls" } : MainState).lastScript = some "ls" ∧
    ("ls" : String) ≠ "" ∧
    (step initState Ev.stdinLine = (initState, none) ∧
     step { initState with lastScript := some "" } Ev.stdinLine =
       ({ initState with lastScript := some "" }, none) ∧
     step { initState with lastScript := some "ls" } Ev.stdinLine =
       ({ initState with lastScript := some "ls", scripts := [] ++ ["ls"] },
        none)) :=
  ⟨rfl, rfl, rfl, by decide,
   stdin_repeats_nonempty_last initState
     { initState with lastScript := some "" }
     { initState with lastScript := some "ls" } "ls" rfl rfl rfl (by decide)⟩
